import Mathlib

/-!
Verification of `pymisc-utils` (`misc/missingdata/nan_label_encoder.py` and
`misc/missing_data_utils.py`) against its natural-language specification.

The Python code is shallowly embedded:
* label values are `Option A` over a linearly ordered label universe `A`
  (`none` stands for `np.nan` / `None`, i.e. anything `pd.isnull`
  recognises; `some s` is an ordinary label; Python compares labels with
  `<`, and the concrete alphabet `PyStr` below mirrors the lexicographic
  order of the string labels the scenarios use);
* numeric matrix cells are `Option Int` (`none` stands for `np.nan`);
* fallible operations return `Except PyError _`;
* the in-place array mutation performed by `inverse_transform` is made
  explicit by also returning the final contents of the caller's array;
* heap-allocation behaviour of the injector / splitter functions is made
  explicit through a small store (`Store`) of matrix and vector objects,
  so that "returns a fresh object, never writes the input" is a provable
  statement rather than a vacuous one.
-/

set_option maxHeartbeats 1000000

/-- Errors raised by the embedded functions of `missing_data_utils.py`. -/
inductive PyError where
  | nameError : String → PyError
  | valueError : String → PyError
deriving DecidableEq

/-- Errors raised by the embedded `NaNLabelEncoder`, over label type `A`:
`notFitted` is sklearn's `NotFittedError`; `markerFound` is the fit-time
`ValueError` "found the missing value marker in the array"; `newLabels` and
`newCodes` carry the `np.setdiff1d` payload of the `ValueError`
"y contains new labels: ..."; `noneLen` is the `TypeError` raised by
`len(None)`. -/
inductive EncoderError (A : Type) where
  | notFitted : EncoderError A
  | markerFound : EncoderError A
  | newLabels : List A → EncoderError A
  | newCodes : List Nat → EncoderError A
  | noneLen : EncoderError A
deriving DecidableEq

instance {E B : Type} [DecidableEq E] [DecidableEq B] :
    DecidableEq (Except E B) := fun x y =>
  match x, y with
  | .ok a, .ok b =>
    if h : a = b then isTrue (by rw [h])
    else isFalse (by intro hh; injection hh; contradiction)
  | .error a, .error b =>
    if h : a = b then isTrue (by rw [h])
    else isFalse (by intro hh; injection hh; contradiction)
  | .ok _, .error _ => isFalse (by intro hh; injection hh)
  | .error _, .ok _ => isFalse (by intro hh; injection hh)

/-- A Python label value: `none` is `np.nan` / `None`, `some s` a real label.
The label universe `A` is any linearly ordered type of Python values;
Python compares labels with `<` during `np.unique` / `np.searchsorted`. -/
abbrev PyVal (A : Type) := Option A

/-- Sorted duplicate-free insertion, the building block of `npUnique`. -/
def sInsert {α : Type} [LinearOrder α] (x : α) : List α → List α
  | [] => [x]
  | y :: ys =>
    if x < y then x :: y :: ys
    else if x = y then y :: ys
    else y :: sInsert x ys

/-- `np.unique`: the sorted list of distinct elements of `l`. -/
def npUnique {α : Type} [LinearOrder α] (l : List α) : List α :=
  l.foldr sInsert []

theorem mem_sInsert {α : Type} [LinearOrder α] (a x : α) (l : List α) :
    a ∈ sInsert x l ↔ a = x ∨ a ∈ l := by
  induction l with
  | nil => simp [sInsert]
  | cons y ys ih =>
    by_cases h1 : x < y
    · simp [sInsert, h1]
    · by_cases h2 : x = y
      · subst h2
        simp [sInsert, h1]
      · simp [sInsert, h1, h2, ih]
        tauto

theorem pairwise_sInsert {α : Type} [LinearOrder α] (x : α) (l : List α)
    (hs : l.Pairwise (· < ·)) : (sInsert x l).Pairwise (· < ·) := by
  induction l with
  | nil => simp [sInsert]
  | cons y ys ih =>
    rw [List.pairwise_cons] at hs
    by_cases h1 : x < y
    · rw [sInsert, if_pos h1]
      refine List.Pairwise.cons ?_ (List.Pairwise.cons hs.1 hs.2)
      intro b hb
      rw [List.mem_cons] at hb
      rcases hb with rfl | hb
      · exact h1
      · exact lt_trans h1 (hs.1 b hb)
    · by_cases h2 : x = y
      · rw [sInsert, if_neg h1, if_pos h2]
        exact List.Pairwise.cons hs.1 hs.2
      · rw [sInsert, if_neg h1, if_neg h2]
        refine List.Pairwise.cons ?_ (ih hs.2)
        intro b hb
        rw [mem_sInsert] at hb
        rcases hb with rfl | hb
        · rcases lt_trichotomy b y with h | h | h
          · exact absurd h h1
          · exact absurd h h2
          · exact h
        · exact hs.1 b hb

theorem pairwise_npUnique {α : Type} [LinearOrder α] (l : List α) :
    (npUnique l).Pairwise (· < ·) := by
  induction l with
  | nil => simp [npUnique]
  | cons x xs ih => exact pairwise_sInsert x _ ih

theorem mem_npUnique {α : Type} [LinearOrder α] (a : α) (l : List α) :
    a ∈ npUnique l ↔ a ∈ l := by
  induction l with
  | nil => simp [npUnique]
  | cons x xs ih =>
    show a ∈ sInsert x (npUnique xs) ↔ _
    rw [mem_sInsert, ih]
    simp

/-- `np.searchsorted(a, v)` (side `left`): the binary search numpy performs,
reproduced step for step.  Each loop iteration shrinks `hi - lo` by at least
one, so running the body with any fuel of at least `hi - lo` steps computes
the loop's result; `searchsorted` supplies fuel `a.length`.  `d` is the junk
value used for (never reached) out-of-range reads. -/
def searchsortedAux {α : Type} [LinearOrder α] (d : α) (a : List α) (v : α) :
    Nat → Nat → Nat → Nat
  | 0, lo, _ => lo
  | fuel + 1, lo, hi =>
    if lo < hi then
      let mid := (lo + hi) / 2
      if a.getD mid d < v then searchsortedAux d a v fuel (mid + 1) hi
      else searchsortedAux d a v fuel lo mid
    else lo

def searchsorted {α : Type} [LinearOrder α] (d : α) (a : List α) (v : α) : Nat :=
  searchsortedAux d a v a.length 0 a.length

theorem searchsortedAux_indexOf {α : Type} [LinearOrder α] (d : α)
    (a : List α) (v : α) (hs : a.Pairwise (· < ·)) (hv : v ∈ a) :
    ∀ n lo hi, hi - lo ≤ n → hi ≤ a.length →
      lo ≤ a.indexOf v → a.indexOf v ≤ hi →
      searchsortedAux d a v n lo hi = a.indexOf v := by
  have hidx : a.indexOf v < a.length := List.indexOf_lt_length.mpr hv
  have hgetD : a.getD (a.indexOf v) d = v := by
    rw [List.getD_eq_getElem?_getD, List.getElem?_eq_getElem hidx]
    simp [List.getElem_indexOf hidx]
  have hmono : ∀ i j, i < a.length → j < a.length → i < j →
      a.getD i d < a.getD j d := by
    intro i j hi hj hij
    rw [List.getD_eq_getElem?_getD, List.getElem?_eq_getElem hi,
      List.getD_eq_getElem?_getD, List.getElem?_eq_getElem hj]
    exact List.pairwise_iff_getElem.mp hs i j hi hj hij
  intro n
  induction n with
  | zero =>
    intro lo hi hfuel _ hlo hhi
    rw [searchsortedAux]
    omega
  | succ n ih =>
    intro lo hi hfuel hlen hlo hhi
    rw [searchsortedAux]
    by_cases hlh : lo < hi
    · rw [if_pos hlh]
      have hmidlt : (lo + hi) / 2 < hi := by omega
      have hmidge : lo ≤ (lo + hi) / 2 := by omega
      have hmidlen : (lo + hi) / 2 < a.length := by omega
      by_cases hcmp : a.getD ((lo + hi) / 2) d < v
      · rw [if_pos hcmp]
        -- a[mid] < v = a[idx]  ⇒  mid < idx
        have hmidx : (lo + hi) / 2 < a.indexOf v := by
          rcases Nat.lt_trichotomy ((lo + hi) / 2) (a.indexOf v) with h | h | h
          · exact h
          · exfalso
            rw [h, hgetD] at hcmp
            exact lt_irrefl v hcmp
          · exfalso
            have hlt := hmono (a.indexOf v) ((lo + hi) / 2) hidx hmidlen h
            rw [hgetD] at hlt
            exact absurd (lt_trans hlt hcmp) (lt_irrefl _)
        exact ih ((lo + hi) / 2 + 1) hi (by omega) hlen (by omega) hhi
      · rw [if_neg hcmp]
        -- ¬ a[mid] < v = a[idx]  ⇒  idx ≤ mid
        have hmidx : a.indexOf v ≤ (lo + hi) / 2 := by
          by_contra hcon
          push_neg at hcon
          have hlt := hmono ((lo + hi) / 2) (a.indexOf v) hmidlen hidx hcon
          rw [hgetD] at hlt
          exact hcmp hlt
        exact ih lo ((lo + hi) / 2) (by omega) (by omega) hlo hmidx
    · rw [if_neg hlh]
      omega

theorem searchsorted_indexOf {α : Type} [LinearOrder α] (d : α)
    (a : List α) (v : α) (hs : a.Pairwise (· < ·)) (hv : v ∈ a) :
    searchsorted d a v = a.indexOf v :=
  searchsortedAux_indexOf d a v hs hv a.length 0 a.length (by omega)
    (le_refl _) (Nat.zero_le _) (le_of_lt (List.indexOf_lt_length.mpr hv))

/-!
## The missing-aware label encoder
(`misc/missingdata/nan_label_encoder.py`)

In the embedding the internal missing-value marker is a proper value of the
label universe `A`; the source's `pd.isnull(self.missing_value_marker)`
guard (fit, lines 50-53) is therefore vacuously passed — it only rejects a
null marker, and the null value is represented outside `A` (as the `none`
of `PyVal A`).  An encoder that has not been fitted has `classes_ = none`
(`sklearn.utils.validation.check_is_fitted` tests for the presence of the
`classes_` attribute).
-/

structure NaNLabelEncoder (A : Type) where
  missing_value_marker : A
  labels : Option (List A)
  treat_unknown_as_missing : Bool
  classes_ : Option (List A)
deriving DecidableEq

/-- `NaNLabelEncoder.__init__`: no `classes_` attribute yet.  The Python
defaults are marker `"---NaN---"`, `labels=None`,
`treat_unknown_as_missing=False`. -/
def NaNLabelEncoder.mk' {A : Type} (missing_value_marker : A)
    (labels : Option (List A))
    (treat_unknown_as_missing : Bool) : NaNLabelEncoder A :=
  ⟨missing_value_marker, labels, treat_unknown_as_missing, none⟩

/-- `NaNLabelEncoder.fit` (lines 39-79): reject when the marker occurs in the
data; `classes_` is `np.unique` of the non-null entries, unioned with the
declared `labels` when present; `self.labels` is updated to that (marker-free)
class list, and the marker is appended as the final entry of `classes_`. -/
def NaNLabelEncoder.fit {A : Type} [LinearOrder A] (e : NaNLabelEncoder A)
    (y : List (PyVal A)) : Except (EncoderError A) (NaNLabelEncoder A) :=
  if some e.missing_value_marker ∈ y then
    .error .markerFound
  else
    let cls0 : List A := npUnique (y.filterMap id)
    let cls1 : List A :=
      match e.labels with
      | none => cls0
      | some ls => npUnique (cls0 ++ ls)
    .ok { missing_value_marker := e.missing_value_marker
          labels := some cls1
          treat_unknown_as_missing := e.treat_unknown_as_missing
          classes_ := some (cls1 ++ [e.missing_value_marker]) }

/-- `NaNLabelEncoder.get_num_classes` (lines 81-84): `len(self.labels)` with
no fitted-check; `len(None)` is a `TypeError`. -/
def NaNLabelEncoder.get_num_classes {A : Type} (e : NaNLabelEncoder A) :
    Except (EncoderError A) Nat :=
  match e.labels with
  | none => .error .noneLen
  | some ls => .ok ls.length

/-- `np.isin(v, cs)` for a single value: a null is never `in` a list of
non-null classes. -/
def npIsin {A : Type} [DecidableEq A] (v : PyVal A) (cs : List A) : Bool :=
  match v with
  | none => false
  | some s => decide (s ∈ cs)

/-- The mask `m_nan` of `transform` (lines 101-105), per element: null
entries, plus (when `treat_unknown_as_missing`) entries not in `classes_`. -/
def NaNLabelEncoder.mNan {A : Type} [DecidableEq A] (tu : Bool) (cs : List A)
    (v : PyVal A) : Bool :=
  v.isNone || (tu && !(npIsin v cs))

/-- `y[m_nan] = self.missing_value_marker` (line 107), per element.  (At a
position that is not masked, `v` is `some s` and the result is `s`; the
`getD` default is never reached.) -/
def NaNLabelEncoder.subst {A : Type} [DecidableEq A] (marker : A) (tu : Bool)
    (cs : List A) (v : PyVal A) : A :=
  if NaNLabelEncoder.mNan tu cs v then marker else v.getD marker

/-- `np.intersect1d(classes, cs)` where `classes` is already sorted and
duplicate-free (it comes out of `np.unique`). -/
def npIntersect {A : Type} [DecidableEq A] (classes cs : List A) : List A :=
  classes.filter (fun c => decide (c ∈ cs))

/-- `np.setdiff1d(classes, cs)` where `classes` is already sorted and
duplicate-free. -/
def npSetdiff {A : Type} [DecidableEq A] (classes cs : List A) : List A :=
  classes.filter (fun c => decide (c ∉ cs))

/-- `NaNLabelEncoder.transform` (lines 86-123).  Output codes are
`Option Nat`: `some k` is the float code `k`, `none` is the `np.nan`
placeholder written back over the masked positions (line 122).  The
`np.searchsorted` call at a masked position is skipped here because its
result is overwritten by `np.nan` anyway. -/
def NaNLabelEncoder.transform {A : Type} [LinearOrder A]
    (e : NaNLabelEncoder A) (y : List (PyVal A)) :
    Except (EncoderError A) (List (Option Nat)) :=
  match e.classes_ with
  | none => .error .notFitted
  | some cs =>
    let tu := e.treat_unknown_as_missing
    let ys : List A := y.map (NaNLabelEncoder.subst e.missing_value_marker tu cs)
    let classes : List A := npUnique ys
    if (npIntersect classes cs).length < classes.length then
      .error (.newLabels (npSetdiff classes cs))
    else
      .ok (y.map (fun v =>
        if NaNLabelEncoder.mNan tu cs v then none
        else some (searchsorted e.missing_value_marker cs
          (NaNLabelEncoder.subst e.missing_value_marker tu cs v))))

/-- `NaNLabelEncoder.inverse_transform` (lines 125-147).  The function
mutates its argument in place (`y[m_nan] = len(self.classes_)-1`, line 140)
before validating the code range; the second component of the result is the
final contents of the caller's array.  Codes are `Option Nat`
(`none` = `np.nan`). -/
def NaNLabelEncoder.inverse_transform {A : Type} [LinearOrder A]
    (e : NaNLabelEncoder A) (y : List (Option Nat)) :
    Except (EncoderError A) (List A) × List (Option Nat) :=
  match e.classes_ with
  | none => (.error .notFitted, y)
  | some cs =>
    let y2 : List (Option Nat) := y.map (fun v =>
      match v with
      | none => some (cs.length - 1)
      | some k => some k)
    let diff : List Nat :=
      npUnique ((y.filterMap id).filter (fun k => decide (cs.length ≤ k)))
    if diff = [] then
      (.ok (y2.map (fun v => cs.getD (v.getD 0) e.missing_value_marker)), y2)
    else
      (.error (.newCodes diff), y2)

/-!
## Missingness injection and splitting (`misc/missing_data_utils.py`)

Matrix cells are `Option Int` (`none` = `np.nan`).  NumPy arrays are
rectangular, so a matrix is a list of equal-length rows; the embedding is
row-based and reads columns through `getD`.

To make allocation behaviour provable, each operation also exists in a
"store" form (`_H` suffix): the store holds every live matrix / vector
object at an address (its list index), plus the process-wide NumPy random
state that `np.random.seed` overwrites.  Reading is `readMat` / `readVec`;
creating a new object is `allocMat` / `allocVec`, which appends and returns
the fresh address.  An operation leaves its argument unmodified exactly when
the store entries below the old allocation bound are unchanged.
-/

abbrev DataCell := Option Int
abbrev DataVec := List DataCell
abbrev DataMatrix := List DataVec

structure Store where
  mats : List DataMatrix
  vecs : List DataVec
  rng : Nat
deriving DecidableEq

def Store.readMat (s : Store) (a : Nat) : DataMatrix := s.mats.getD a []

def Store.readVec (s : Store) (a : Nat) : DataVec := s.vecs.getD a []

def Store.allocMat (s : Store) (m : DataMatrix) : Store × Nat :=
  (⟨s.mats ++ [m], s.vecs, s.rng⟩, s.mats.length)

def Store.allocVec (s : Store) (v : DataVec) : Store × Nat :=
  (⟨s.mats, s.vecs ++ [v], s.rng⟩, s.vecs.length)

/-- `X.shape[1]` of a rectangular matrix. -/
def numCols (X : DataMatrix) : Nat := (X.headD []).length

/-- `X[:,i]`. -/
def getCol (X : DataMatrix) (i : Nat) : DataVec :=
  X.map (fun r => r.getD i none)

/-- Modelled from the spec: `misc.math_utils.mask_random_values` is imported
by `get_mcar_incomplete_data` but `misc/math_utils.py` is not part of the
source snapshot.  Spec §4.1 (MCAR mode): "For every cell independently, mark
it missing with probability p, using a deterministic pseudorandom generator
initialized from the seed so that identical (matrix shape, p, seed) always
yields an identical mask"; the marked cells of the returned copy are replaced
by the missing marker and the boolean mask is also returned.  The generator
is a concrete 32-bit linear congruential generator seeded from
`random_state`. -/
def lcgNext (s : Nat) : Nat := (1664525 * s + 1013904223) % 4294967296

/-- One uniform draw compared against the likelihood `p`. -/
def cellMissing (st : Nat) (p : ℚ) : Bool := decide ((st : ℚ) < p * 4294967296)

def maskCells (p : ℚ) : DataVec → Nat → DataVec × List Bool × Nat
  | [], st => ([], [], st)
  | c :: cs, st =>
    let st1 := lcgNext st
    let m := cellMissing st1 p
    let rest := maskCells p cs st1
    ((if m then none else c) :: rest.1, m :: rest.2.1, rest.2.2)

def maskRows (p : ℚ) : DataMatrix → Nat → DataMatrix × List (List Bool) × Nat
  | [], st => ([], [], st)
  | r :: rs, st =>
    let row := maskCells p r st
    let rest := maskRows p rs row.2.2
    (row.1 :: rest.1, row.2.1 :: rest.2.1, rest.2.2)

def mask_random_values (X : DataMatrix) (p : ℚ) (seed : Nat) :
    DataMatrix × List (List Bool) :=
  let res := maskRows p X seed
  (res.1, res.2.1)

/-- `get_mcar_incomplete_data` (lines 82-113): delegates to
`mask_random_values` and discards the mask. -/
def get_mcar_incomplete_data (X : DataMatrix) (p : ℚ) (seed : Nat) : DataMatrix :=
  (mask_random_values X p seed).1

/-- Store form of `get_mcar_incomplete_data`: reads the input matrix,
allocates the fresh incomplete matrix. -/
def get_mcar_incomplete_data_H (xa : Nat) (p : ℚ) (seed : Nat) (s : Store) :
    Store × Nat :=
  s.allocMat (get_mcar_incomplete_data (s.readMat xa) p seed)

/-- The `ValueError` message of `get_nmar_incomplete_data` (lines 150-154). -/
def nmarLenMsg : String :=
  "[get_nmar_complete_data]: the number of functions for missing data does not match the number of dimensions of the data."

/-- Column `i` of the result of `get_nmar_incomplete_data`: the transform for
column `i` applied to `X[:,i]`, or the column unchanged when the transform
is `None`. -/
def nmarCol (fs : List (Option (DataVec → DataVec))) (X : DataMatrix)
    (i : Nat) : DataVec :=
  match fs.getD i none with
  | none => getCol X i
  | some f => f (getCol X i)

/-- The content of `X_ret` after the loop of `get_nmar_incomplete_data`
(lines 156-160): `X.copy()` with the transformed columns written over it,
reassembled row-wise (numpy arrays are rectangular). -/
def nmarApply (fs : List (Option (DataVec → DataVec))) (X : DataMatrix) :
    DataMatrix :=
  (List.range X.length).map (fun j =>
    (List.range (numCols X)).map (fun i => (nmarCol fs X i).getD j none))

/-- `get_nmar_incomplete_data` (lines 116-162), store form.  `np.random.seed`
overwrites the process random state first (line 147); then the
function-count check; then the fresh copy is filled and allocated. -/
def get_nmar_incomplete_data_H (fs : List (Option (DataVec → DataVec)))
    (xa : Nat) (seed : Nat) (s : Store) : Store × Except PyError Nat :=
  let s1 : Store := ⟨s.mats, s.vecs, seed⟩
  let X := s1.readMat xa
  if fs.length ≠ numCols X then
    (s1, .error (.valueError nmarLenMsg))
  else
    let r := s1.allocMat (nmarApply fs X)
    (r.1, .ok r.2)

/-- `get_mar_incomplete_data` (lines 201-233), store form.  `np.random.seed`
first (line 226); `np.full_like` allocates the fresh result; each row of the
result is the per-row transform applied to the corresponding input row. -/
def get_mar_incomplete_data_H (f : DataVec → DataVec) (xa : Nat) (seed : Nat)
    (s : Store) : Store × Nat :=
  let s1 : Store := ⟨s.mats, s.vecs, seed⟩
  s1.allocMat ((s1.readMat xa).map f)

/-- `get_incomplete_data` (lines 273-316).  The first statement of the body
is `mechanism = mechanims.lower()`; the name `mechanims` is bound nowhere
(it is a misspelling of the `mechanism` parameter), so every call raises
`NameError: name 'mechanims' is not defined` before the dispatch is
reached.  The remainder of the body (the three-way dispatch and the
unknown-mechanism `ValueError`) is dead code. -/
def get_incomplete_data_H {α : Type} (xa : Nat) (mechanism : String) (ml : α)
    (seed : Nat) (s : Store) : Store × Except PyError Nat :=
  (s, .error (.nameError "mechanims"))

/-- `IncompleteDataset` named tuple (lines 323-335). -/
structure IncompleteDataset where
  X_train_complete : DataMatrix
  X_train_incomplete : DataMatrix
  X_test_complete : DataMatrix
  X_test_incomplete : DataMatrix
  y_train : DataVec
  y_test : DataVec
deriving DecidableEq

/-- NumPy fancy indexing `X[ix]`: a fresh matrix of the selected rows. -/
def selectRows (X : DataMatrix) (ix : List Nat) : DataMatrix :=
  ix.map (fun i => X.getD i [])

/-- NumPy fancy indexing `y[ix]` on a vector. -/
def selectVec (y : DataVec) (ix : List Nat) : DataVec :=
  ix.map (fun i => y.getD i none)

/-- `get_incomplete_data_splits` (lines 337-411).  The `(train, test)` pair
produced by `StratifiedKFold(...).split` and `more_itertools.nth` is an
argument: `sklearn.model_selection` is an external library, and the claims
quantify over whatever index pair it yields.  Both the complete and the
incomplete matrix are indexed with the same `train` (resp. `test`) list. -/
def get_incomplete_data_splits (split : List Nat × List Nat)
    (Xc Xi : DataMatrix) (y : DataVec) : IncompleteDataset :=
  { X_train_complete := selectRows Xc split.1
    X_train_incomplete := selectRows Xi split.1
    X_test_complete := selectRows Xc split.2
    X_test_incomplete := selectRows Xi split.2
    y_train := selectVec y split.1
    y_test := selectVec y split.2 }

/-- Addresses of the six freshly produced objects, in the order the source
builds them (lines 396-400). -/
structure IncompleteDatasetAddrs where
  X_train_complete : Nat
  X_train_incomplete : Nat
  X_test_complete : Nat
  X_test_incomplete : Nat
  y_train : Nat
  y_test : Nat
deriving DecidableEq

/-- Store form of `get_incomplete_data_splits`: reads the three inputs and
allocates the six fresh results, in source order. -/
def get_incomplete_data_splits_H (split : List Nat × List Nat)
    (xca xia ya : Nat) (s : Store) : Store × IncompleteDatasetAddrs :=
  let ds := get_incomplete_data_splits split (s.readMat xca) (s.readMat xia)
    (s.readVec ya)
  let r1 := s.allocMat ds.X_train_complete
  let r2 := r1.1.allocVec ds.y_train
  let r3 := r2.1.allocMat ds.X_test_complete
  let r4 := r3.1.allocVec ds.y_test
  let r5 := r4.1.allocMat ds.X_train_incomplete
  let r6 := r5.1.allocMat ds.X_test_incomplete
  (r6.1, ⟨r1.2, r5.2, r3.2, r6.2, r2.2, r4.2⟩)

/-- "The caller-supplied matrices are unmodified": every matrix address
valid in `s` reads the same in `s'`. -/
def matsUnchanged (s s' : Store) : Prop :=
  ∀ a, a < s.mats.length → s'.readMat a = s.readMat a

/-- Every vector address valid in `s` reads the same in `s'`. -/
def vecsUnchanged (s s' : Store) : Prop :=
  ∀ a, a < s.vecs.length → s'.readVec a = s.readVec a

theorem getD_append_lt {α : Type} (l l' : List α) (d : α) (a : Nat)
    (h : a < l.length) : (l ++ l').getD a d = l.getD a d := by
  rw [List.getD_eq_getElem?_getD, List.getD_eq_getElem?_getD,
    List.getElem?_append_left h]

theorem getD_append_length {α : Type} (l : List α) (x d : α) :
    (l ++ [x]).getD l.length d = x := by
  rw [List.getD_eq_getElem?_getD, List.getElem?_append_right (le_refl _)]
  simp

theorem matsUnchanged_of_append (s s' : Store) (l : List DataMatrix)
    (h : s'.mats = s.mats ++ l) : matsUnchanged s s' := by
  intro a ha
  show s'.mats.getD a [] = s.mats.getD a []
  rw [h]
  exact getD_append_lt _ _ _ _ ha

theorem vecsUnchanged_of_append (s s' : Store) (l : List DataVec)
    (h : s'.vecs = s.vecs ++ l) : vecsUnchanged s s' := by
  intro a ha
  show s'.vecs.getD a [] = s.vecs.getD a []
  rw [h]
  exact getD_append_lt _ _ _ _ ha

theorem matsUnchanged_of_eq (s s' : Store) (h : s'.mats = s.mats) :
    matsUnchanged s s' := by
  intro a ha
  show s'.mats.getD a [] = s.mats.getD a []
  rw [h]

theorem vecsUnchanged_of_eq (s s' : Store) (h : s'.vecs = s.vecs) :
    vecsUnchanged s s' := by
  intro a ha
  show s'.vecs.getD a [] = s.vecs.getD a []
  rw [h]

theorem readMat_allocMat_self (s : Store) (m : DataMatrix) :
    (s.allocMat m).1.readMat (s.allocMat m).2 = m := by
  show (s.mats ++ [m]).getD s.mats.length [] = m
  exact getD_append_length _ _ _

theorem getD_map_of_lt {α β : Type} (f : α → β) (l : List α) (j : Nat)
    (h : j < l.length) (d : β) (d0 : α) :
    (l.map f).getD j d = f (l.getD j d0) := by
  rw [List.getD_eq_getElem?_getD, List.getElem?_map,
    List.getElem?_eq_getElem h, List.getD_eq_getElem?_getD,
    List.getElem?_eq_getElem h]
  rfl

/-!
## Claim theorems
-/

/-- C2 (code_bug): the unified dispatch `get_incomplete_data` never reaches
its mechanism check: its first statement reads the undefined name
`mechanims`, so every call — valid tag or not, in any store — raises
`NameError` and leaves the store untouched.  The routing and the
configuration error described by the claim are dead code. -/
theorem c2_dispatch_always_name_error {α : Type} (xa : Nat)
    (mechanism : String) (ml : α) (seed : Nat) (s : Store) :
    get_incomplete_data_H xa mechanism ml seed s
      = (s, .error (.nameError "mechanims")) := rfl

/-- C6 (confirmed, spec-modelled PRNG): the output of
`get_mcar_incomplete_data` — and the (matrix, mask) pair of the underlying
`mask_random_values` — depends only on the input matrix, the likelihood and
the seed: two calls on identical matrices agree, whatever stores the two
calls run in and whatever the ambient random state is. -/
theorem c6_mcar_repeatable (s1 s2 : Store) (xa1 xa2 : Nat) (p : ℚ)
    (seed : Nat) (h : s1.readMat xa1 = s2.readMat xa2) :
    mask_random_values (s1.readMat xa1) p seed
      = mask_random_values (s2.readMat xa2) p seed ∧
    (get_mcar_incomplete_data_H xa1 p seed s1).1.readMat
        (get_mcar_incomplete_data_H xa1 p seed s1).2
      = (get_mcar_incomplete_data_H xa2 p seed s2).1.readMat
          (get_mcar_incomplete_data_H xa2 p seed s2).2 := by
  constructor
  · rw [h]
  · show (Store.allocMat _ _).1.readMat (Store.allocMat _ _).2
      = (Store.allocMat _ _).1.readMat (Store.allocMat _ _).2
    rw [readMat_allocMat_self, readMat_allocMat_self,
      get_mcar_incomplete_data, get_mcar_incomplete_data, h]

/-- The 100-by-4 matrix of the spec's concrete MCAR scenario. -/
def mcarDemoMatrix : DataMatrix :=
  List.replicate 100 (List.replicate 4 (some 0))

def mcarStoreA : Store := ⟨[mcarDemoMatrix], [], 0⟩

def mcarStoreB : Store := ⟨[[], mcarDemoMatrix], [[some 3]], 424242⟩

/-- Witness for C6: two runs on a 100-by-4 matrix with p = 0.2 and
seed 8675309, from two different stores with different ambient random
state, give identical outputs. -/
theorem c6_mcar_repeatable_witness :
    mcarStoreA.readMat 0 = mcarStoreB.readMat 1 ∧
    (mask_random_values (mcarStoreA.readMat 0) (1/5) 8675309
        = mask_random_values (mcarStoreB.readMat 1) (1/5) 8675309 ∧
      (get_mcar_incomplete_data_H 0 (1/5) 8675309 mcarStoreA).1.readMat
          (get_mcar_incomplete_data_H 0 (1/5) 8675309 mcarStoreA).2
        = (get_mcar_incomplete_data_H 1 (1/5) 8675309 mcarStoreB).1.readMat
            (get_mcar_incomplete_data_H 1 (1/5) 8675309 mcarStoreB).2) :=
  ⟨rfl, c6_mcar_repeatable mcarStoreA mcarStoreB 0 1 (1/5) 8675309 rfl⟩

/-- C7 (confirmed): each injector and the splitter allocates fresh objects
for its results (every returned address is at or above the old allocation
bound) and leaves every pre-existing matrix and vector object unchanged.
For the NMAR injector this is stated for a transform list of the right
length; the mismatch case is C8. -/
theorem c7_defensive_copies (s : Store) (xa xca xia ya : Nat) (p : ℚ)
    (seed : Nat) (f : DataVec → DataVec)
    (fs : List (Option (DataVec → DataVec))) (split : List Nat × List Nat)
    (hfs : fs.length = numCols (s.readMat xa)) :
    (matsUnchanged s (get_mcar_incomplete_data_H xa p seed s).1 ∧
      vecsUnchanged s (get_mcar_incomplete_data_H xa p seed s).1 ∧
      (get_mcar_incomplete_data_H xa p seed s).2 = s.mats.length) ∧
    (matsUnchanged s (get_nmar_incomplete_data_H fs xa seed s).1 ∧
      vecsUnchanged s (get_nmar_incomplete_data_H fs xa seed s).1 ∧
      (get_nmar_incomplete_data_H fs xa seed s).2 = .ok s.mats.length) ∧
    (matsUnchanged s (get_mar_incomplete_data_H f xa seed s).1 ∧
      vecsUnchanged s (get_mar_incomplete_data_H f xa seed s).1 ∧
      (get_mar_incomplete_data_H f xa seed s).2 = s.mats.length) ∧
    (matsUnchanged s (get_incomplete_data_splits_H split xca xia ya s).1 ∧
      vecsUnchanged s (get_incomplete_data_splits_H split xca xia ya s).1 ∧
      s.mats.length ≤ (get_incomplete_data_splits_H split xca xia ya s).2.X_train_complete ∧
      s.mats.length ≤ (get_incomplete_data_splits_H split xca xia ya s).2.X_train_incomplete ∧
      s.mats.length ≤ (get_incomplete_data_splits_H split xca xia ya s).2.X_test_complete ∧
      s.mats.length ≤ (get_incomplete_data_splits_H split xca xia ya s).2.X_test_incomplete ∧
      s.vecs.length ≤ (get_incomplete_data_splits_H split xca xia ya s).2.y_train ∧
      s.vecs.length ≤ (get_incomplete_data_splits_H split xca xia ya s).2.y_test) := by
  refine ⟨⟨?_, ?_, rfl⟩, ?_, ⟨?_, ?_, rfl⟩, ?_⟩
  · exact matsUnchanged_of_append s _ _ rfl
  · exact vecsUnchanged_of_eq s _ rfl
  · rw [get_nmar_incomplete_data_H]
    have hX : (⟨s.mats, s.vecs, seed⟩ : Store).readMat xa = s.readMat xa := rfl
    rw [hX, if_neg (by rw [hfs]; exact fun h => h rfl)]
    exact ⟨matsUnchanged_of_append s _ _ rfl, vecsUnchanged_of_eq s _ rfl, rfl⟩
  · exact matsUnchanged_of_append s _ _ rfl
  · exact vecsUnchanged_of_eq s _ rfl
  · refine ⟨?_, ?_, ?_, ?_, ?_, ?_, ?_, ?_⟩
    · apply matsUnchanged_of_append s _
        [selectRows (s.readMat xca) split.1, selectRows (s.readMat xca) split.2,
          selectRows (s.readMat xia) split.1, selectRows (s.readMat xia) split.2]
      simp [get_incomplete_data_splits_H, Store.allocMat, Store.allocVec,
        get_incomplete_data_splits]
    · apply vecsUnchanged_of_append s _
        [selectVec (s.readVec ya) split.1, selectVec (s.readVec ya) split.2]
      simp [get_incomplete_data_splits_H, Store.allocMat, Store.allocVec,
        get_incomplete_data_splits]
    all_goals
      simp [get_incomplete_data_splits_H, Store.allocMat, Store.allocVec]

def c7Store : Store := ⟨[[[some 1, some 2]]], [[some 5]], 7⟩

/-- Witness for C7 at a concrete store holding one 1-by-2 matrix and one
vector, with a transform list of matching length 2. -/
theorem c7_defensive_copies_witness :
    ([(none : Option (DataVec → DataVec)), none]).length
        = numCols (c7Store.readMat 0) ∧
    ((matsUnchanged c7Store (get_mcar_incomplete_data_H 0 (1/2) 3 c7Store).1 ∧
      vecsUnchanged c7Store (get_mcar_incomplete_data_H 0 (1/2) 3 c7Store).1 ∧
      (get_mcar_incomplete_data_H 0 (1/2) 3 c7Store).2 = c7Store.mats.length) ∧
    (matsUnchanged c7Store (get_nmar_incomplete_data_H [none, none] 0 3 c7Store).1 ∧
      vecsUnchanged c7Store (get_nmar_incomplete_data_H [none, none] 0 3 c7Store).1 ∧
      (get_nmar_incomplete_data_H [none, none] 0 3 c7Store).2 = .ok c7Store.mats.length) ∧
    (matsUnchanged c7Store (get_mar_incomplete_data_H id 0 3 c7Store).1 ∧
      vecsUnchanged c7Store (get_mar_incomplete_data_H id 0 3 c7Store).1 ∧
      (get_mar_incomplete_data_H id 0 3 c7Store).2 = c7Store.mats.length) ∧
    (matsUnchanged c7Store (get_incomplete_data_splits_H ([0], [0]) 0 0 0 c7Store).1 ∧
      vecsUnchanged c7Store (get_incomplete_data_splits_H ([0], [0]) 0 0 0 c7Store).1 ∧
      c7Store.mats.length ≤ (get_incomplete_data_splits_H ([0], [0]) 0 0 0 c7Store).2.X_train_complete ∧
      c7Store.mats.length ≤ (get_incomplete_data_splits_H ([0], [0]) 0 0 0 c7Store).2.X_train_incomplete ∧
      c7Store.mats.length ≤ (get_incomplete_data_splits_H ([0], [0]) 0 0 0 c7Store).2.X_test_complete ∧
      c7Store.mats.length ≤ (get_incomplete_data_splits_H ([0], [0]) 0 0 0 c7Store).2.X_test_incomplete ∧
      c7Store.vecs.length ≤ (get_incomplete_data_splits_H ([0], [0]) 0 0 0 c7Store).2.y_train ∧
      c7Store.vecs.length ≤ (get_incomplete_data_splits_H ([0], [0]) 0 0 0 c7Store).2.y_test)) :=
  ⟨rfl, c7_defensive_copies c7Store 0 0 0 0 (1/2) 3 id [none, none] ([0], [0]) rfl⟩

/-- C8 (confirmed): when the transform list length differs from the column
count, the NMAR injector fails with the configuration `ValueError`, no
matrix or vector object is touched or allocated, and no transform is
consulted: any other transform list of the same (wrong) length produces the
very same outcome.  (`np.random.seed` has already overwritten the global
random state, which is not part of the claim.) -/
theorem c8_nmar_length_mismatch (fs fs' : List (Option (DataVec → DataVec)))
    (xa seed : Nat) (s : Store)
    (hlen : fs.length ≠ numCols (s.readMat xa)) (hlen' : fs'.length = fs.length) :
    (get_nmar_incomplete_data_H fs xa seed s).2 = .error (.valueError nmarLenMsg) ∧
    (get_nmar_incomplete_data_H fs xa seed s).1.mats = s.mats ∧
    (get_nmar_incomplete_data_H fs xa seed s).1.vecs = s.vecs ∧
    get_nmar_incomplete_data_H fs' xa seed s = get_nmar_incomplete_data_H fs xa seed s := by
  have hc : fs.length ≠ numCols ((⟨s.mats, s.vecs, seed⟩ : Store).readMat xa) := hlen
  have hc' : fs'.length ≠ numCols ((⟨s.mats, s.vecs, seed⟩ : Store).readMat xa) := by
    rw [hlen']
    exact hlen
  refine ⟨?_, ?_, ?_, ?_⟩ <;>
    simp only [get_nmar_incomplete_data_H, if_pos hc, if_pos hc']

/-- Witness for C8: a 1-by-2 matrix with a 1-element transform list. -/
theorem c8_nmar_length_mismatch_witness :
    ([(none : Option (DataVec → DataVec))]).length ≠ numCols (c7Store.readMat 0) ∧
    ([(some (fun v => v) : Option (DataVec → DataVec))]).length
        = ([(none : Option (DataVec → DataVec))]).length ∧
    ((get_nmar_incomplete_data_H [none] 0 3 c7Store).2 = .error (.valueError nmarLenMsg) ∧
      (get_nmar_incomplete_data_H [none] 0 3 c7Store).1.mats = c7Store.mats ∧
      (get_nmar_incomplete_data_H [none] 0 3 c7Store).1.vecs = c7Store.vecs ∧
      get_nmar_incomplete_data_H [some (fun v => v)] 0 3 c7Store
        = get_nmar_incomplete_data_H [none] 0 3 c7Store) :=
  ⟨by decide, rfl,
    c8_nmar_length_mismatch [none] [some (fun v => v)] 0 3 c7Store (by decide) rfl⟩

/-- C9 (confirmed): the splitter derives the complete and incomplete train
matrices from the same row-index sequence (and likewise the test matrices):
each output position `j` of both train matrices holds row `train[j]` of the
respective source matrix, whatever `(train, test)` pair the stratified
k-fold split produced. -/
theorem c9_split_shares_row_indices (split : List Nat × List Nat)
    (Xc Xi : DataMatrix) (y : DataVec) (j k : Nat)
    (hj : j < split.1.length) (hk : k < split.2.length) :
    ((get_incomplete_data_splits split Xc Xi y).X_train_complete
        = selectRows Xc split.1 ∧
      (get_incomplete_data_splits split Xc Xi y).X_train_incomplete
        = selectRows Xi split.1 ∧
      (get_incomplete_data_splits split Xc Xi y).X_test_complete
        = selectRows Xc split.2 ∧
      (get_incomplete_data_splits split Xc Xi y).X_test_incomplete
        = selectRows Xi split.2) ∧
    (get_incomplete_data_splits split Xc Xi y).X_train_complete.getD j []
      = Xc.getD (split.1.getD j 0) [] ∧
    (get_incomplete_data_splits split Xc Xi y).X_train_incomplete.getD j []
      = Xi.getD (split.1.getD j 0) [] ∧
    (get_incomplete_data_splits split Xc Xi y).X_test_complete.getD k []
      = Xc.getD (split.2.getD k 0) [] ∧
    (get_incomplete_data_splits split Xc Xi y).X_test_incomplete.getD k []
      = Xi.getD (split.2.getD k 0) [] :=
  ⟨⟨rfl, rfl, rfl, rfl⟩,
    getD_map_of_lt _ _ j hj [] 0, getD_map_of_lt _ _ j hj [] 0,
    getD_map_of_lt _ _ k hk [] 0, getD_map_of_lt _ _ k hk [] 0⟩

def c9Xc : DataMatrix := [[some 1], [some 2], [some 3]]

def c9Xi : DataMatrix := [[none], [some 20], [some 30]]

/-- Witness for C9 on a concrete 3-row pair with split `([1, 0], [2])`. -/
theorem c9_split_shares_row_indices_witness :
    (0 < ([1, 0] : List Nat).length ∧ 0 < ([2] : List Nat).length) ∧
    (((get_incomplete_data_splits ([1, 0], [2]) c9Xc c9Xi [some 0, some 0, some 1]).X_train_complete
        = selectRows c9Xc [1, 0] ∧
      (get_incomplete_data_splits ([1, 0], [2]) c9Xc c9Xi [some 0, some 0, some 1]).X_train_incomplete
        = selectRows c9Xi [1, 0] ∧
      (get_incomplete_data_splits ([1, 0], [2]) c9Xc c9Xi [some 0, some 0, some 1]).X_test_complete
        = selectRows c9Xc [2] ∧
      (get_incomplete_data_splits ([1, 0], [2]) c9Xc c9Xi [some 0, some 0, some 1]).X_test_incomplete
        = selectRows c9Xi [2]) ∧
    (get_incomplete_data_splits ([1, 0], [2]) c9Xc c9Xi [some 0, some 0, some 1]).X_train_complete.getD 0 []
      = c9Xc.getD (([1, 0] : List Nat).getD 0 0) [] ∧
    (get_incomplete_data_splits ([1, 0], [2]) c9Xc c9Xi [some 0, some 0, some 1]).X_train_incomplete.getD 0 []
      = c9Xi.getD (([1, 0] : List Nat).getD 0 0) [] ∧
    (get_incomplete_data_splits ([1, 0], [2]) c9Xc c9Xi [some 0, some 0, some 1]).X_test_complete.getD 0 []
      = c9Xc.getD (([2] : List Nat).getD 0 0) [] ∧
    (get_incomplete_data_splits ([1, 0], [2]) c9Xc c9Xi [some 0, some 0, some 1]).X_test_incomplete.getD 0 []
      = c9Xi.getD (([2] : List Nat).getD 0 0) []) :=
  ⟨⟨by decide, by decide⟩,
    c9_split_shares_row_indices ([1, 0], [2]) c9Xc c9Xi [some 0, some 0, some 1]
      0 0 (by decide) (by decide)⟩

/-- The concrete label alphabet used in witnesses and counterexamples.
Each constructor stands for one Python string:
`nanMarker` = `"---NaN---"` (the default marker), `sA` = `"a"`, `sB` = `"b"`,
`sC` = `"c"`, `sD` = `"d"`, `sE` = `"e"`, `sM` = `"m"`, `sZzz` = `"zzz"`.
The order below (via `code`) is exactly Python's lexicographic order of
those eight strings: `"---NaN---"` starts with `'-'` (code 45), below every
lowercase letter. -/
inductive PyStr where
  | nanMarker : PyStr
  | sA : PyStr
  | sB : PyStr
  | sC : PyStr
  | sD : PyStr
  | sE : PyStr
  | sM : PyStr
  | sZzz : PyStr
deriving DecidableEq, Fintype

def PyStr.code : PyStr → Nat
  | .nanMarker => 0
  | .sA => 1
  | .sB => 2
  | .sC => 3
  | .sD => 4
  | .sE => 5
  | .sM => 6
  | .sZzz => 7

instance : LinearOrder PyStr :=
  LinearOrder.lift' PyStr.code (by decide)

/-- C10 (confirmed): `inverse_transform` writes `len(classes_) - 1` over
every `np.nan` entry of the caller's array before validating the code
range, so after the call the caller-supplied array holds the substituted
codes — also when the validation then fails. -/
theorem c10_inverse_transform_mutates_input {A : Type} [LinearOrder A]
    (e : NaNLabelEncoder A) (cs : List A) (y : List (Option Nat))
    (h : e.classes_ = some cs) :
    (e.inverse_transform y).2
      = y.map (fun v =>
          match v with
          | none => some (cs.length - 1)
          | some k => some k) := by
  simp only [NaNLabelEncoder.inverse_transform, h]
  split <;> rfl

def c10Encoder : NaNLabelEncoder PyStr :=
  ⟨.nanMarker, some [.sA, .sB], false, some [.sA, .sB, .nanMarker]⟩

/-- Witness for C10: on codes `[nan, 7]` with three fitted classes the
caller's array becomes `[2, 7]` even though the call itself fails the range
check on the stale code 7. -/
theorem c10_inverse_transform_mutates_input_witness :
    c10Encoder.classes_ = some [.sA, .sB, .nanMarker] ∧
    (c10Encoder.inverse_transform [none, some 7]).2 = [some 2, some 7] :=
  ⟨rfl,
    (c10_inverse_transform_mutates_input c10Encoder [.sA, .sB, .nanMarker]
      [none, some 7] rfl).trans (by decide)⟩

theorem indexOf_append_self {A : Type} [DecidableEq A] (u : List A) (m : A)
    (h : m ∉ u) : (u ++ [m]).indexOf m = u.length := by
  induction u with
  | nil => simp
  | cons x xs ih =>
    have hx : x ≠ m := fun e => h (e ▸ List.mem_cons_self x xs)
    rw [List.cons_append, List.indexOf_cons_ne _ hx,
      ih (fun hm => h (List.mem_cons_of_mem _ hm)), List.length_cons]

theorem getD_indexOf_mem {A : Type} [DecidableEq A] (l : List A) (a d : A)
    (h : a ∈ l) : l.getD (l.indexOf a) d = a := by
  rw [List.getD_eq_getElem?_getD,
    List.getElem?_eq_getElem (List.indexOf_lt_length.mpr h)]
  simp [List.getElem_indexOf]

/-- Characterisation of a successful `fit`: the marker was absent from the
data, and the fitted encoder carries the sorted duplicate-free class list
`u` (observed non-null values unioned with the declared labels) in
`labels`, with the marker appended in `classes_`. -/
theorem NaNLabelEncoder.fit_ok {A : Type} [LinearOrder A]
    (e : NaNLabelEncoder A) (y : List (PyVal A)) (enc : NaNLabelEncoder A)
    (h : e.fit y = .ok enc) :
    some e.missing_value_marker ∉ y ∧
    ∃ u : List A,
      enc = ⟨e.missing_value_marker, some u, e.treat_unknown_as_missing,
        some (u ++ [e.missing_value_marker])⟩ ∧
      u.Pairwise (· < ·) ∧
      (∀ c, c ∈ u ↔ some c ∈ y ∨ c ∈ e.labels.getD []) := by
  rw [NaNLabelEncoder.fit] at h
  by_cases hm : some e.missing_value_marker ∈ y
  · rw [if_pos hm] at h
    exact absurd h (by simp)
  · rw [if_neg hm] at h
    refine ⟨hm, ?_⟩
    cases hl : e.labels with
    | none =>
      simp only [hl] at h
      injection h with h2
      refine ⟨npUnique (y.filterMap id), h2.symm, pairwise_npUnique _, ?_⟩
      intro c
      simp [mem_npUnique, List.mem_filterMap, hl]
    | some ls =>
      simp only [hl] at h
      injection h with h2
      refine ⟨npUnique (npUnique (y.filterMap id) ++ ls), h2.symm,
        pairwise_npUnique _, ?_⟩
      intro c
      simp [mem_npUnique, List.mem_append, List.mem_filterMap, hl]

/-- On a fitted encoder whose marker is above every fitted class (so that
`classes_` really is sorted and `np.searchsorted` is a correct rank lookup),
`transform` succeeds on any input drawn from the fitted classes and missing
values, coding a class by its index in `classes_` and a missing value by the
`np.nan` placeholder. -/
theorem NaNLabelEncoder.transform_ok {A : Type} [LinearOrder A] (marker : A)
    (u : List A) (tu : Bool) (lab : Option (List A))
    (hso : u.Pairwise (· < ·)) (hlt : ∀ c ∈ u, c < marker)
    (L : List (PyVal A))
    (hL : ∀ v ∈ L, v = none ∨ ∃ s, v = some s ∧ s ∈ u) :
    (⟨marker, lab, tu, some (u ++ [marker])⟩ : NaNLabelEncoder A).transform L
      = .ok (L.map (fun v =>
          match v with
          | none => none
          | some s => some ((u ++ [marker]).indexOf s))) := by
  have hcso : (u ++ [marker]).Pairwise (· < ·) := by
    rw [List.pairwise_append]
    refine ⟨hso, List.pairwise_singleton _ _, ?_⟩
    intro a ha b hb
    rw [List.mem_singleton] at hb
    subst hb
    exact hlt a ha
  have hmem : ∀ v ∈ L, NaNLabelEncoder.mNan tu (u ++ [marker]) v = false →
      NaNLabelEncoder.subst marker tu (u ++ [marker]) v ∈ u := by
    intro v hv hnn
    rcases hL v hv with rfl | ⟨s, rfl, hs⟩
    · simp [NaNLabelEncoder.mNan] at hnn
    · simp only [NaNLabelEncoder.subst, hnn, if_neg, Bool.false_eq_true,
        if_false, Option.getD_some]
      exact hs
  have hmnan : ∀ (s : A), s ∈ u →
      NaNLabelEncoder.mNan tu (u ++ [marker]) (some s) = false := by
    intro s hs
    have : npIsin (some s) (u ++ [marker]) = true := by
      simp [npIsin, List.mem_append, hs]
    simp [NaNLabelEncoder.mNan, this]
  have hsubst : ∀ (s : A), s ∈ u →
      NaNLabelEncoder.subst marker tu (u ++ [marker]) (some s) = s := by
    intro s hs
    simp [NaNLabelEncoder.subst, hmnan s hs]
  simp only [NaNLabelEncoder.transform]
  rw [if_neg]
  · congr 1
    refine List.map_congr_left ?_
    intro v hv
    rcases hL v hv with rfl | ⟨s, rfl, hs⟩
    · simp [NaNLabelEncoder.mNan]
    · rw [if_neg (by rw [hmnan s hs]; simp), hsubst s hs,
        searchsorted_indexOf _ _ _ hcso (List.mem_append_left _ hs)]
  · rw [not_lt]
    have : npIntersect
        (npUnique (L.map (NaNLabelEncoder.subst marker tu (u ++ [marker]))))
        (u ++ [marker])
        = npUnique (L.map (NaNLabelEncoder.subst marker tu (u ++ [marker]))) := by
      rw [npIntersect, List.filter_eq_self]
      intro c hc
      rw [mem_npUnique] at hc
      rw [List.mem_map] at hc
      obtain ⟨v, hv, rfl⟩ := hc
      rcases hL v hv with rfl | ⟨s, rfl, hs⟩
      · simp [NaNLabelEncoder.subst, NaNLabelEncoder.mNan, List.mem_append]
      · rw [hsubst s hs]
        simp [List.mem_append, hs]
    rw [this]

/-- On a fitted encoder, `inverse_transform` applied to the code list that
`transform` produces for an input drawn from the fitted classes and missing
values succeeds and returns the class of each code, with the `np.nan`
placeholder decoded to the marker. -/
theorem NaNLabelEncoder.inverse_ok {A : Type} [LinearOrder A] (marker : A)
    (u : List A) (tu : Bool) (lab : Option (List A))
    (L : List (PyVal A))
    (hL : ∀ v ∈ L, v = none ∨ ∃ s, v = some s ∧ s ∈ u) :
    ((⟨marker, lab, tu, some (u ++ [marker])⟩ : NaNLabelEncoder A).inverse_transform
        (L.map (fun v =>
          match v with
          | none => none
          | some s => some ((u ++ [marker]).indexOf s)))).1
      = .ok (L.map (fun v => v.getD marker)) := by
  simp only [NaNLabelEncoder.inverse_transform]
  have hfil : (List.filterMap id (L.map (fun v =>
      match v with
      | none => none
      | some s => some ((u ++ [marker]).indexOf s)))).filter
        (fun k => decide ((u ++ [marker]).length ≤ k)) = [] := by
    rw [List.filter_eq_nil_iff]
    intro k hk
    rw [List.mem_filterMap] at hk
    obtain ⟨w, hw, hwk⟩ := hk
    rw [List.mem_map] at hw
    obtain ⟨v, hv, rfl⟩ := hw
    rcases hL v hv with rfl | ⟨s, rfl, hs⟩
    · exact absurd hwk (by simp)
    · simp only [id] at hwk
      injection hwk with hwk
      subst hwk
      have : (u ++ [marker]).indexOf s < (u ++ [marker]).length :=
        List.indexOf_lt_length.mpr (List.mem_append_left _ hs)
      simp only [decide_eq_true_eq]
      omega
  rw [hfil]
  have hnil : (npUnique ([] : List Nat)) = [] := rfl
  rw [hnil, if_pos rfl]
  dsimp only
  rw [List.map_map, List.map_map]
  congr 1
  refine List.map_congr_left ?_
  intro v hv
  rcases hL v hv with rfl | ⟨s, rfl, hs⟩
  · show (u ++ [marker]).getD ((u ++ [marker]).length - 1) marker
      = (none : PyVal A).getD marker
    rw [List.length_append, List.length_singleton]
    have : u.length + 1 - 1 = u.length := by omega
    rw [this, getD_append_length, Option.getD_none]
  · show (u ++ [marker]).getD ((u ++ [marker]).indexOf s) marker
      = (some s : PyVal A).getD marker
    rw [getD_indexOf_mem _ _ _ (List.mem_append_left _ hs), Option.getD_some]

/-- C1 (corrected): for an encoder fitted so that the sentinel marker is
above every fitted class (otherwise `np.searchsorted` on the unsorted
`classes_` miscodes, see the counterexample), and an input drawn from the
fitted class set and missing values, `inverse_transform ∘ transform`
succeeds and reproduces every non-missing entry; an originally-missing
entry comes back as the encoder's internal marker value, not as the
original missing representation. -/
theorem c1_round_trip {A : Type} [LinearOrder A] (e : NaNLabelEncoder A)
    (y L : List (PyVal A)) (enc : NaNLabelEncoder A) (u : List A)
    (hfit : e.fit y = .ok enc) (hu : enc.labels = some u)
    (hm : ∀ c ∈ u, c < e.missing_value_marker)
    (hL : ∀ v ∈ L, v = none ∨ ∃ s, v = some s ∧ s ∈ u) :
    ∃ codes, enc.transform L = .ok codes ∧
      (enc.inverse_transform codes).1
        = .ok (L.map (fun v => v.getD e.missing_value_marker)) := by
  obtain ⟨-, u', henc, hso, -⟩ := NaNLabelEncoder.fit_ok e y enc hfit
  have hu' : u' = u := by
    rw [henc] at hu
    injection hu
  subst hu'
  rw [henc]
  exact ⟨_,
    NaNLabelEncoder.transform_ok e.missing_value_marker u'
      e.treat_unknown_as_missing (some u') hso hm L hL,
    NaNLabelEncoder.inverse_ok e.missing_value_marker u'
      e.treat_unknown_as_missing (some u') L hL⟩

/-- Counterexample for C1 as stated.  First part (marker `"zzz"`, fitted
class `"a"`): the round trip of `["a", nan]` returns `["a", "zzz"]` — the
missing entry is reproduced as the internal marker string, not as the
original missing value.  Second part (the default marker `"---NaN---"`,
which sorts below `"a"`, fitted class `"a"`): `transform(["a"])` miscodes
`"a"` as 2 (out of range, because `np.searchsorted` runs on the unsorted
`classes_ = ["a", "---NaN---"]`), and the round trip then raises instead of
reproducing the input. -/
theorem c1_round_trip_counterexample :
    (NaNLabelEncoder.mk' PyStr.sZzz none false).fit [some .sA]
        = .ok ⟨.sZzz, some [.sA], false, some [.sA, .sZzz]⟩ ∧
    (⟨.sZzz, some [.sA], false, some [.sA, .sZzz]⟩
        : NaNLabelEncoder PyStr).transform [some .sA, none]
      = .ok [some 0, none] ∧
    ((⟨.sZzz, some [.sA], false, some [.sA, .sZzz]⟩
        : NaNLabelEncoder PyStr).inverse_transform [some 0, none]).1
      = .ok [.sA, .sZzz] ∧
    ([PyStr.sA, PyStr.sZzz].map some ≠ ([some .sA, none] : List (PyVal PyStr))) ∧
    (NaNLabelEncoder.mk' PyStr.nanMarker none false).fit [some .sA]
        = .ok ⟨.nanMarker, some [.sA], false, some [.sA, .nanMarker]⟩ ∧
    (⟨.nanMarker, some [.sA], false, some [.sA, .nanMarker]⟩
        : NaNLabelEncoder PyStr).transform [some .sA]
      = .ok [some 2] ∧
    ((⟨.nanMarker, some [.sA], false, some [.sA, .nanMarker]⟩
        : NaNLabelEncoder PyStr).inverse_transform [some 2]).1
      = .error (.newCodes [2]) :=
  ⟨rfl, rfl, rfl, by decide, rfl, rfl, rfl⟩

/-- Witness for C1: marker `"zzz"`, fitted on `["a", nan, "b"]`, round
trip of `["a", nan, "b"]`. -/
theorem c1_round_trip_witness :
    (NaNLabelEncoder.mk' PyStr.sZzz none false).fit [some .sA, none, some .sB]
        = .ok ⟨.sZzz, some [.sA, .sB], false, some [.sA, .sB, .sZzz]⟩ ∧
    (⟨.sZzz, some [.sA, .sB], false, some [.sA, .sB, .sZzz]⟩
        : NaNLabelEncoder PyStr).labels = some [.sA, .sB] ∧
    (∀ c ∈ [PyStr.sA, PyStr.sB], c <
      (NaNLabelEncoder.mk' PyStr.sZzz none false).missing_value_marker) ∧
    (∀ v ∈ [some PyStr.sA, none, some PyStr.sB],
      v = none ∨ ∃ s, v = some s ∧ s ∈ [PyStr.sA, PyStr.sB]) ∧
    ∃ codes,
      (⟨.sZzz, some [.sA, .sB], false, some [.sA, .sB, .sZzz]⟩
          : NaNLabelEncoder PyStr).transform [some .sA, none, some .sB]
        = .ok codes ∧
      ((⟨.sZzz, some [.sA, .sB], false, some [.sA, .sB, .sZzz]⟩
          : NaNLabelEncoder PyStr).inverse_transform codes).1
        = .ok ([some PyStr.sA, none, some PyStr.sB].map
            (fun v => v.getD (NaNLabelEncoder.mk'
              PyStr.sZzz none false).missing_value_marker)) :=
  ⟨rfl, rfl, by decide, by decide,
    c1_round_trip (NaNLabelEncoder.mk' PyStr.sZzz none false)
      [some .sA, none, some .sB] [some .sA, none, some .sB]
      ⟨.sZzz, some [.sA, .sB], false, some [.sA, .sB, .sZzz]⟩
      [.sA, .sB] rfl rfl (by decide) (by decide)⟩

/-- C3 (corrected): the concrete scenario.  Fitting on
`["a", "b", None, "a"]` yields the class order `["a", "b", sentinel]` as
claimed, but `transform(["a", "c"])` with unseen-as-missing enabled returns
`[0, nan]`: the unseen `"c"` is replaced by the missing marker and its
output slot is then overwritten with the `np.nan` placeholder (line 122),
not with the sentinel's integer index 2.  (`PyStr` spells the strings:
`sA` = `"a"`, `sB` = `"b"`, `sC` = `"c"`, `nanMarker` = `"---NaN---"`.) -/
theorem c3_concrete_scenario :
    (NaNLabelEncoder.mk' PyStr.nanMarker none true).fit
        [some .sA, some .sB, none, some .sA]
      = .ok ⟨.nanMarker, some [.sA, .sB], true, some [.sA, .sB, .nanMarker]⟩ ∧
    (⟨.nanMarker, some [.sA, .sB], true, some [.sA, .sB, .nanMarker]⟩
        : NaNLabelEncoder PyStr).transform [some .sA, some .sC]
      = .ok [some 0, none] :=
  ⟨rfl, rfl⟩

/-- Counterexample for C3 as stated: in the very scenario of the claim the
transform result is `[0, nan]`, not the claimed `[0, 2]`. -/
theorem c3_concrete_scenario_counterexample :
    (NaNLabelEncoder.mk' PyStr.nanMarker none true).fit
        [some .sA, some .sB, none, some .sA]
      = .ok ⟨.nanMarker, some [.sA, .sB], true, some [.sA, .sB, .nanMarker]⟩ ∧
    (⟨.nanMarker, some [.sA, .sB], true, some [.sA, .sB, .nanMarker]⟩
        : NaNLabelEncoder PyStr).transform [some .sA, some .sC]
      ≠ .ok [some 0, some 2] :=
  ⟨rfl, by decide⟩

/-- C4 (corrected): the fitted class list is the sorted duplicate-free
union of the observed non-missing labels and the declared labels with the
sentinel appended; provided the sentinel is above every fitted class (so
that `classes_` is actually sorted — otherwise `np.searchsorted` is wrong,
see the counterexample), the sentinel sits at the final, highest index and
`transform` codes every fitted class by its rank in `classes_`. -/
theorem c4_class_list_and_ranks {A : Type} [LinearOrder A]
    (e : NaNLabelEncoder A) (y : List (PyVal A)) (enc : NaNLabelEncoder A)
    (u : List A) (L : List A)
    (hfit : e.fit y = .ok enc) (hu : enc.labels = some u)
    (hlt : ∀ c ∈ u, c < e.missing_value_marker)
    (hL : ∀ s ∈ L, s ∈ u) :
    enc.classes_ = some (u ++ [e.missing_value_marker]) ∧
    u.Pairwise (· < ·) ∧
    (∀ c, c ∈ u ↔ some c ∈ y ∨ c ∈ e.labels.getD []) ∧
    (u ++ [e.missing_value_marker]).indexOf e.missing_value_marker
      = u.length ∧
    enc.transform (L.map some)
      = .ok (L.map (fun s =>
          some ((u ++ [e.missing_value_marker]).indexOf s))) := by
  obtain ⟨-, u', henc, hso, hmem⟩ := NaNLabelEncoder.fit_ok e y enc hfit
  have hu' : u' = u := by
    rw [henc] at hu
    injection hu
  subst hu'
  have hnm : e.missing_value_marker ∉ u' :=
    fun hmm => absurd (hlt _ hmm) (lt_irrefl _)
  refine ⟨by rw [henc], hso, hmem, indexOf_append_self u' _ hnm, ?_⟩
  rw [henc]
  rw [NaNLabelEncoder.transform_ok e.missing_value_marker u'
    e.treat_unknown_as_missing (some u') hso hlt (L.map some)
    (by
      intro v hv
      rw [List.mem_map] at hv
      obtain ⟨s, hs, rfl⟩ := hv
      exact Or.inr ⟨s, rfl, hL s hs⟩), List.map_map]
  rfl

/-- Counterexample for C4 as stated.  With marker `"a"` (= `sA`) fitted on
`["b", "c", "d", "e"]`, `classes_ = ["b", "c", "d", "e", "a"]` is unsorted
and `transform(["e"])` codes `"e"` as 5 — not its rank 3 in the class list
(5 is not even a valid index).  Moreover, when the sentinel value also
appears among the caller-declared labels (marker `"m"` = `sM`, declared
labels `["m"]`), the sentinel is appended a second time, so it is not a
single final entry. -/
theorem c4_class_list_and_ranks_counterexample :
    (NaNLabelEncoder.mk' PyStr.sA none false).fit
        [some .sB, some .sC, some .sD, some .sE]
      = .ok ⟨.sA, some [.sB, .sC, .sD, .sE], false,
          some [.sB, .sC, .sD, .sE, .sA]⟩ ∧
    (⟨.sA, some [.sB, .sC, .sD, .sE], false, some [.sB, .sC, .sD, .sE, .sA]⟩
        : NaNLabelEncoder PyStr).transform [some .sE]
      = .ok [some 5] ∧
    ([PyStr.sB, .sC, .sD, .sE, .sA] : List PyStr).indexOf .sE = 3 ∧
    (5 : Nat) ≠ 3 ∧
    (NaNLabelEncoder.mk' PyStr.sM (some [.sM]) false).fit [some .sA]
      = .ok ⟨.sM, some [.sA, .sM], false, some [.sA, .sM, .sM]⟩ ∧
    ([PyStr.sA, .sM, .sM] : List PyStr).count .sM = 2 :=
  ⟨rfl, rfl, by decide, by decide, rfl, by decide⟩

/-- Witness for C4: marker `"zzz"`, declared label `"c"`, fitted on
`["b", nan, "a"]`. -/
theorem c4_class_list_and_ranks_witness :
    (NaNLabelEncoder.mk' PyStr.sZzz (some [.sC]) false).fit
        [some .sB, none, some .sA]
      = .ok ⟨.sZzz, some [.sA, .sB, .sC], false,
          some [.sA, .sB, .sC, .sZzz]⟩ ∧
    (⟨.sZzz, some [.sA, .sB, .sC], false, some [.sA, .sB, .sC, .sZzz]⟩
        : NaNLabelEncoder PyStr).labels = some [.sA, .sB, .sC] ∧
    (∀ c ∈ [PyStr.sA, PyStr.sB, PyStr.sC], c <
      (NaNLabelEncoder.mk' PyStr.sZzz (some [.sC]) false).missing_value_marker) ∧
    (∀ s ∈ [PyStr.sC, PyStr.sA], s ∈ [PyStr.sA, PyStr.sB, PyStr.sC]) ∧
    ((⟨.sZzz, some [.sA, .sB, .sC], false, some [.sA, .sB, .sC, .sZzz]⟩
        : NaNLabelEncoder PyStr).classes_
      = some ([PyStr.sA, PyStr.sB, PyStr.sC]
          ++ [(NaNLabelEncoder.mk' PyStr.sZzz (some [.sC]) false).missing_value_marker]) ∧
    ([PyStr.sA, PyStr.sB, PyStr.sC] : List PyStr).Pairwise (· < ·) ∧
    (∀ c, c ∈ [PyStr.sA, PyStr.sB, PyStr.sC] ↔
      some c ∈ [some PyStr.sB, none, some PyStr.sA] ∨
      c ∈ ((NaNLabelEncoder.mk' PyStr.sZzz (some [.sC]) false).labels).getD []) ∧
    ([PyStr.sA, PyStr.sB, PyStr.sC]
        ++ [(NaNLabelEncoder.mk' PyStr.sZzz (some [.sC]) false).missing_value_marker]).indexOf
        (NaNLabelEncoder.mk' PyStr.sZzz (some [.sC]) false).missing_value_marker
      = ([PyStr.sA, PyStr.sB, PyStr.sC] : List PyStr).length ∧
    (⟨.sZzz, some [.sA, .sB, .sC], false, some [.sA, .sB, .sC, .sZzz]⟩
        : NaNLabelEncoder PyStr).transform ([PyStr.sC, PyStr.sA].map some)
      = .ok ([PyStr.sC, PyStr.sA].map (fun s =>
          some (([PyStr.sA, PyStr.sB, PyStr.sC]
            ++ [(NaNLabelEncoder.mk' PyStr.sZzz (some [.sC]) false).missing_value_marker]).indexOf s)))) :=
  ⟨rfl, rfl, by decide, by decide,
    c4_class_list_and_ranks (NaNLabelEncoder.mk' PyStr.sZzz (some [.sC]) false)
      [some .sB, none, some .sA]
      ⟨.sZzz, some [.sA, .sB, .sC], false, some [.sA, .sB, .sC, .sZzz]⟩
      [.sA, .sB, .sC] [.sC, .sA] rfl rfl (by decide) (by decide)⟩

/-- C5 (corrected): on an unfitted encoder, `transform` and
`inverse_transform` do fail with the not-fitted error (and
`inverse_transform` leaves its argument untouched), but the class-count
query has no fitted-check: it returns the length of the constructor-supplied
label list when one was given, and fails with a `TypeError` (`len(None)`) —
not a not-fitted error — when none was. -/
theorem c5_unfitted_behaviour {A : Type} [LinearOrder A]
    (e : NaNLabelEncoder A) (h : e.classes_ = none) :
    (∀ L, e.transform L = .error .notFitted) ∧
    (∀ y, e.inverse_transform y = (.error .notFitted, y)) ∧
    (e.labels = none → e.get_num_classes = .error .noneLen) ∧
    (∀ ls, e.labels = some ls → e.get_num_classes = .ok ls.length) := by
  refine ⟨?_, ?_, ?_, ?_⟩
  · intro L
    simp [NaNLabelEncoder.transform, h]
  · intro y
    simp [NaNLabelEncoder.inverse_transform, h]
  · intro hl
    simp [NaNLabelEncoder.get_num_classes, hl]
  · intro ls hl
    simp [NaNLabelEncoder.get_num_classes, hl]

/-- Counterexample for C5 as stated: an unfitted encoder constructed with
declared labels `["a", "b"]` answers the class-count query with `.ok 2`
instead of failing with a not-fitted error. -/
theorem c5_unfitted_behaviour_counterexample :
    (NaNLabelEncoder.mk' PyStr.nanMarker (some [.sA, .sB]) false).classes_
      = none ∧
    (NaNLabelEncoder.mk' PyStr.nanMarker (some [.sA, .sB]) false).get_num_classes
      = .ok 2 :=
  ⟨rfl, rfl⟩

/-- Witness for C5, at an unfitted encoder without declared labels and one
with declared labels. -/
theorem c5_unfitted_behaviour_witness :
    ((NaNLabelEncoder.mk' PyStr.nanMarker none false).classes_ = none ∧
      (∀ L, (NaNLabelEncoder.mk' PyStr.nanMarker none false).transform L
        = .error .notFitted) ∧
      (∀ y, (NaNLabelEncoder.mk' PyStr.nanMarker none false).inverse_transform y
        = (.error .notFitted, y)) ∧
      ((NaNLabelEncoder.mk' PyStr.nanMarker none false).labels = none →
        (NaNLabelEncoder.mk' PyStr.nanMarker none false).get_num_classes
          = .error .noneLen) ∧
      (∀ ls, (NaNLabelEncoder.mk' PyStr.nanMarker none false).labels = some ls →
        (NaNLabelEncoder.mk' PyStr.nanMarker none false).get_num_classes
          = .ok ls.length)) ∧
    ((NaNLabelEncoder.mk' PyStr.sZzz (some [.sC]) true).classes_ = none ∧
      (∀ L, (NaNLabelEncoder.mk' PyStr.sZzz (some [.sC]) true).transform L
        = .error .notFitted) ∧
      (∀ y, (NaNLabelEncoder.mk' PyStr.sZzz (some [.sC]) true).inverse_transform y
        = (.error .notFitted, y)) ∧
      ((NaNLabelEncoder.mk' PyStr.sZzz (some [.sC]) true).labels = none →
        (NaNLabelEncoder.mk' PyStr.sZzz (some [.sC]) true).get_num_classes
          = .error .noneLen) ∧
      (∀ ls, (NaNLabelEncoder.mk' PyStr.sZzz (some [.sC]) true).labels = some ls →
        (NaNLabelEncoder.mk' PyStr.sZzz (some [.sC]) true).get_num_classes
          = .ok ls.length)) :=
  ⟨⟨rfl, (c5_unfitted_behaviour (NaNLabelEncoder.mk' PyStr.nanMarker none false) rfl).1,
    (c5_unfitted_behaviour (NaNLabelEncoder.mk' PyStr.nanMarker none false) rfl).2.1,
    (c5_unfitted_behaviour (NaNLabelEncoder.mk' PyStr.nanMarker none false) rfl).2.2.1,
    (c5_unfitted_behaviour (NaNLabelEncoder.mk' PyStr.nanMarker none false) rfl).2.2.2⟩,
   ⟨rfl, (c5_unfitted_behaviour (NaNLabelEncoder.mk' PyStr.sZzz (some [.sC]) true) rfl).1,
    (c5_unfitted_behaviour (NaNLabelEncoder.mk' PyStr.sZzz (some [.sC]) true) rfl).2.1,
    (c5_unfitted_behaviour (NaNLabelEncoder.mk' PyStr.sZzz (some [.sC]) true) rfl).2.2.1,
    (c5_unfitted_behaviour (NaNLabelEncoder.mk' PyStr.sZzz (some [.sC]) true) rfl).2.2.2⟩⟩
